import Mathlib

/-!
# Verification of the RaTS scheduling and unit-movement core

Shallow embedding of `utils/scheduling.py` (ScheduledEvent, EventsScheduler,
EventsCreator) and the movement / map-blocking part of `units/units.py`
(Unit.update_blocked_map_nodes, update_reserved_node, swap_blocked_nodes,
block_map_node, scan_next_nodes_for_collisions, countdown_waiting,
restart_path, move_to and friends).

Modelling conventions:
* Python wall-clock times and delays (floats from `time.time()`) are
  embedded as integer second counts (the embedding needs only their ordered-ring structure); every call that reads the clock takes the current
  time `now` as an explicit argument.
* The source keeps two parallel lists `scheduled_events` and
  `execution_times` that are pushed and popped in lockstep by every
  operation; they are represented as a single list of
  (event, execution-time) pairs.
* Python compares `ScheduledEvent` objects by identity (`list.index`,
  `list.remove`, `in` all fall back to `is` because the class defines no
  `__eq__`); object identity is modelled by a numeric `id` field.
* The scheduled callable, its args and kwargs only matter through the fact
  that the event was executed; executions are recorded in a log of event
  ids (in execution order).  `ScheduledEvent.execute` catches and logs any
  exception, so execution never interrupts the caller; hence the log entry
  is unconditional, exactly as in the source.
* `map/map.py` is not part of the provided sources.  Map nodes are
  therefore modelled from the spec: a cell is a grid coordinate
  (`Pos := ℤ × ℤ`), the bijective grid/position conversions
  (`position_to_node`, `position_to_map_grid`, `map_grid_to_position`,
  `node.position`) are identified, and the map queries used by the
  movement code (`node.walkable`, `node.walkable_adjacent`) together with
  the queries into *other* units' state (`blocker.has_destination`,
  `self.is_enemy(blocker)`, the randomized
  `blocker.find_free_tile_to_unblock_way`) are supplied by an environment
  record `Env`.
-/

/-- Repeat counter of a `ScheduledEvent`.  The source stores
`math.inf` when constructed with `repeat=-1` (an event repeated forever)
and a non-negative number otherwise; `inf` models the infinite case.
The Python attribute is named `repeat`, a Lean keyword, hence `repeats`. -/
inductive EventRepeat where
  | fin (n : ℕ) : EventRepeat
  | inf : EventRepeat
deriving DecidableEq, Repr

/-- Python truthiness of the `repeat` counter (`if event.repeat:`):
`0` is falsy, every other value including `math.inf` is truthy. -/
def EventRepeat.truthy : EventRepeat → Bool
  | .fin 0 => false
  | .fin (_ + 1) => true
  | .inf => true

/-- `event.repeat -= 1` (with `inf - 1 = inf`). -/
def EventRepeat.decremented : EventRepeat → EventRepeat
  | .fin n => .fin (n - 1)
  | .inf => .inf

/-- `ScheduledEvent` of `utils/scheduling.py`.  `id` models Python object
identity; `delay`, `delay_left` and `repeats` are the attributes set by
`__init__` (`delay_left` defaults to `None`).  The callable, args and
kwargs are irrelevant to scheduling itself and are subsumed by `id`. -/
structure ScheduledEvent where
  id : ℕ
  delay : ℤ
  delay_left : Option ℤ
  repeats : EventRepeat
deriving DecidableEq, Repr

/-- The delay actually used by `EventsScheduler.schedule`:
`delay = event.delay_left or event.delay`.  Python `or` takes the right
operand when the left one is falsy, i.e. `None` or `0.0`. -/
def ScheduledEvent.scheduling_delay (e : ScheduledEvent) : ℤ :=
  match e.delay_left with
  | none => e.delay
  | some d => if d = 0 then e.delay else d

/-- The event as mutated by `update` before re-scheduling:
`event.repeat -= 1`, all other attributes untouched. -/
def ScheduledEvent.decremented (e : ScheduledEvent) : ScheduledEvent :=
  { e with repeats := e.repeats.decremented }

/-- `EventsScheduler` of `utils/scheduling.py`.  `registry` is the pair of
parallel lists `scheduled_events` / `execution_times` (always mutated in
lockstep), represented as one list of (event, absolute fire time) pairs. -/
structure EventsScheduler where
  update_rate : ℚ
  registry : List (ScheduledEvent × ℤ)
deriving DecidableEq, Repr

/-- `EventsScheduler.schedule`: append the event and its absolute fire
time `get_time() + (event.delay_left or event.delay)`. -/
def EventsScheduler.schedule (s : EventsScheduler) (now : ℤ)
    (e : ScheduledEvent) : EventsScheduler :=
  { s with registry := s.registry ++ [(e, now + e.scheduling_delay)] }

/-- Remove the first entry whose event is (identically) the event with id
`eid`; unchanged when absent.  This is what
`index = scheduled_events.index(event); scheduled_events.pop(index);
execution_times.pop(index)` guarded by `except ValueError: pass` does on
the paired representation. -/
def removeFirstById (eid : ℕ) : List (ScheduledEvent × ℤ) → List (ScheduledEvent × ℤ)
  | [] => []
  | x :: xs => if x.1.id = eid then xs else x :: removeFirstById eid xs

/-- `EventsScheduler.unschedule`: remove by identity, no-op if absent
(the `ValueError` from `list.index` is swallowed). -/
def EventsScheduler.unschedule (s : EventsScheduler) (e : ScheduledEvent) :
    EventsScheduler :=
  { s with registry := removeFirstById e.id s.registry }

/-- The body of the `for i, event in enumerate(self.scheduled_events)`
loop of `EventsScheduler.update`, made explicit.  A Python list iterator
yields the element at its internal cursor `i` as long as `i` is still
below the *current* length of the (mutated) list, then stops; firing an
event removes it (`unschedule`) and, when repeats remain, appends a copy
with decremented repeat (`schedule`), exactly as the source does.  `fuel`
only bounds the recursion: the registry never grows during the pass
(every iteration removes one entry before appending at most one), so the
cursor reaches the end of the list in at most the initial length of
steps, and `update` passes fuel `length + 1`. -/
def updateLoop (now : ℤ) : ℕ → ℕ → EventsScheduler → List ℕ →
    EventsScheduler × List ℕ
  | 0, _, s, log => (s, log)
  | fuel + 1, i, s, log =>
    match s.registry.get? i with
    | none => (s, log)
    | some (e, t) =>
      if t ≤ now then
        let s1 := s.unschedule e
        let s2 := if e.repeats.truthy then s1.schedule now e.decremented else s1
        updateLoop now fuel (i + 1) s2 (log ++ [e.id])
      else
        updateLoop now fuel (i + 1) s log

/-- `EventsScheduler.update`: one tick of the scheduler.  Returns the new
scheduler state and the log of executed event ids, in execution order. -/
def EventsScheduler.update (s : EventsScheduler) (now : ℤ) :
    EventsScheduler × List ℕ :=
  updateLoop now (s.registry.length + 1) 0 s []

/-- `EventsScheduler.time_left_to_event_execution`:
`execution_times[scheduled_events.index(event)] - get_time()`.  The
`ValueError` raised when the event is absent is modelled by `none`. -/
def EventsScheduler.time_left_to_event_execution (s : EventsScheduler)
    (now : ℤ) (e : ScheduledEvent) : Option ℤ :=
  match s.registry.find? (fun x => x.1.id == e.id) with
  | some x => some (x.2 - now)
  | none => none

/-- One element of the list built by
`EventsCreator.scheduled_events_to_shelve_data`: the persisted form of a
live event.  `id` stands for the persisted action identifier
(`function_name`/`self`/`args`/`kwargs`), which is re-bound at restore
time. -/
structure ShelveDatum where
  id : ℕ
  delay : ℤ
  delay_left : ℤ
  repeats : EventRepeat
deriving DecidableEq, Repr

/-- The dictionary comprehension inside
`EventsCreator.scheduled_events_to_shelve_data`, per event:
`delay_left` is recorded as `scheduler.time_left_to_event_execution(event)`
(propagating its `ValueError` as `none` when the event is not in the
scheduler). -/
def event_to_shelve_datum (s : EventsScheduler) (now : ℤ)
    (e : ScheduledEvent) : Option ShelveDatum :=
  (s.time_left_to_event_execution now e).map
    (fun tl => ⟨e.id, e.delay, tl, e.repeats⟩)

/-- The `ScheduledEvent(...)` construction inside
`EventsCreator.shelve_data_to_scheduled_events`, per datum: the restored
event carries the recorded `delay`, `repeat` and `delay_left`. -/
def shelve_datum_to_event (d : ShelveDatum) : ScheduledEvent :=
  ⟨d.id, d.delay, some d.delay_left, d.repeats⟩

/-- `EventsCreator.remove_event_from_scheduled_list` is a bare
`self.scheduled_events.remove(event)`: Python `list.remove` removes the
first occurrence (by identity here) and raises `ValueError` when the
event is absent; the exception is modelled by `none`. -/
def remove_event_from_scheduled_list (eid : ℕ) :
    List ScheduledEvent → Option (List ScheduledEvent)
  | [] => none
  | x :: xs =>
    if x.id = eid then some xs
    else (remove_event_from_scheduled_list eid xs).map (x :: ·)

/-- `EventsCreator.unschedule_event`: first remove the event from the
owner's `scheduled_events` list (which may raise, aborting before the
scheduler is touched), then `EventsScheduler.instance.unschedule(event)`.
`none` models the propagated `ValueError`. -/
def unschedule_event (own : List ScheduledEvent) (s : EventsScheduler)
    (e : ScheduledEvent) : Option (List ScheduledEvent × EventsScheduler) :=
  (remove_event_from_scheduled_list e.id own).map
    (fun own' => (own', s.unschedule e))

/-- Head fire time of the registry (0 for an empty registry); used to
drive a canonical "due tick" when exercising the scheduler. -/
def EventsScheduler.headTime (s : EventsScheduler) : ℤ :=
  match s.registry with
  | [] => 0
  | x :: _ => x.2

/-- Run `m` ticks of `update`, each at the current head fire time (so a
pending event is always due when its tick comes); concatenates the
execution logs. -/
def runDue : ℕ → EventsScheduler → EventsScheduler × List ℕ
  | 0, s => (s, [])
  | m + 1, s =>
    let p := s.update s.headTime
    let q := runDue m p.1
    (q.1, p.2 ++ q.2)

/-- A scheduler holding exactly one event with `k` repeats left, fire
time `t`. -/
def single (i : ℕ) (d : ℤ) (dl : Option ℤ) (rate : ℚ) (k : ℕ) (t : ℤ) :
    EventsScheduler :=
  ⟨rate, [(⟨i, d, dl, .fin k⟩, t)]⟩

/-! ## Unit movement and map-node blocking (`units/units.py`) -/

/-- A map cell, identified with its grid coordinate.  `map/map.py` is not
among the provided sources; per the spec a cell is an atomic grid
coordinate and the grid/position conversions are bijections, so they are
identified here. -/
abbrev Pos := ℤ × ℤ

/-- Modelled from the spec: the queries the movement code makes into
`map/map.py` (not under the provided sources) and into *other* units'
state.  `walkable p` is `node.walkable`; `walkable_adjacent p` is
`node.walkable_adjacent`; `has_destination b` is `blocker.has_destination`
(`self.path or self.awaited_path or self in Pathfinder.instance` of the
blocking unit); `is_enemy a b` is `self.is_enemy(blocker)`;
`blocker_step_aside b` is the outcome of the blocker's randomized
`find_free_tile_to_unblock_way`: the adjacent tile it picks
(`random.choice` over its walkable adjacent nodes), or `none` when it has
no walkable adjacent node. -/
structure Env where
  walkable : Pos → Bool
  walkable_adjacent : Pos → List Pos
  has_destination : ℕ → Bool
  is_enemy : ℕ → ℕ → Bool
  blocker_step_aside : ℕ → Option Pos

/-- The shared map state touched by a unit: per-cell `node.unit`
(occupancy markers set by `block_map_node`), plus a log of the path
requests issued to the external `Pathfinder.request_path(self, start,
destination)` as (unit id, destination) pairs. -/
structure World where
  occupant : Pos → Option ℕ
  requests : List (ℕ × Pos)

/-- The movement-relevant attributes of `Unit` (`units/units.py`). -/
structure UnitState where
  id : ℕ
  current_node : Pos
  reserved_node : Option Pos
  path : List Pos
  path_wait_counter : ℤ
  awaited_path : Option (List Pos)
deriving DecidableEq

/-- `Unit.unblock_map_node`: `node.unit = None`. -/
def unblock_map_node (w : World) (p : Pos) : World :=
  { w with occupant := fun q => if q = p then none else w.occupant q }

/-- `Unit.block_map_node`: `node.unit = self`, unconditionally. -/
def block_map_node (w : World) (uid : ℕ) (p : Pos) : World :=
  { w with occupant := fun q => if q = p then some uid else w.occupant q }

/-- `Unit.swap_blocked_nodes`: unblock `unblocked` unless it is `None`,
then block `blocked`. -/
def swap_blocked_nodes (w : World) (uid : ℕ) (unblocked : Option Pos)
    (blocked : Pos) : World :=
  block_map_node (match unblocked with
    | some p => unblock_map_node w p
    | none => w) uid blocked

/-- `Unit.update_current_blocked_node`: swap the blocked node from the
old `current_node` to `new_current_node`, then record it. -/
def update_current_blocked_node (u : UnitState) (w : World)
    (new_current_node : Pos) : UnitState × World :=
  ({ u with current_node := new_current_node },
   swap_blocked_nodes w u.id (some u.current_node) new_current_node)

/-- `Unit.update_reserved_node`: reserve the node of `path[0]`, swapping
the blocked node from the old reservation.  Only called under the
caller's `len(self.path) > 1` guard, so the path is never empty there;
the empty case is unreachable and left as the identity. -/
def update_reserved_node (u : UnitState) (w : World) : UnitState × World :=
  match u.path with
  | [] => (u, w)
  | p :: _ =>
    ({ u with reserved_node := some p },
     swap_blocked_nodes w u.id u.reserved_node p)

/-- `Unit.move_to`: cancel pending path requests in the external
pathfinder (not modelled further) and issue
`pathfinder.request_path(self, start, destination)`; the request is
recorded in the world's request log.  The unit's own queue is untouched:
the path arrives asynchronously later via `follow_new_path`. -/
def move_to (u : UnitState) (w : World) (destination : Pos) :
    UnitState × World :=
  (u, { w with requests := w.requests ++ [(u.id, destination)] })

/-- `Unit.wait_for_free_path`: shelve the current path
(`awaited_path := path.copy()`), clear the queue, stop, and set the
1-second deadline `path_wait_counter := time.time() + 1`. -/
def wait_for_free_path (now : ℤ) (u : UnitState) : UnitState :=
  { u with path_wait_counter := now + 1,
           awaited_path := some u.path,
           path := [] }

/-- `Unit.find_alternative_path`: when the path has more than one
waypoint, look for a node adjacent to the current node that is also
adjacent to the waypoint *after* the blocked one and splice it in as the
new `path[0]`. -/
def find_alternative_path (env : Env) (u : UnitState) : Option (List Pos) :=
  match u.path with
  | _ :: p1 :: rest =>
    match (env.walkable_adjacent u.current_node).find?
        (fun n => decide (n ∈ env.walkable_adjacent p1)) with
    | some n => some (n :: p1 :: rest)
    | none => none
  | _ => none

/-- `Unit.ask_for_pass`: ask the blocker to step aside
(`blocker.find_free_tile_to_unblock_way(self.path)`); if it can, it
issues itself a one-step move order (recorded in the request log) and we
wait for the path to free; otherwise re-request a full path to the final
destination `path[-1]`. -/
def ask_for_pass (env : Env) (now : ℤ) (u : UnitState) (w : World)
    (blocker : ℕ) : UnitState × World :=
  match env.blocker_step_aside blocker with
  | some tile =>
    (wait_for_free_path now u,
     { w with requests := w.requests ++ [(blocker, tile)] })
  | none => move_to u w (u.path.getLastD u.current_node)

/-- `Unit.find_best_way_to_avoid_collision`. -/
def find_best_way_to_avoid_collision (env : Env) (now : ℤ) (u : UnitState)
    (w : World) (blocker : ℕ) : UnitState × World :=
  if env.has_destination blocker || env.is_enemy u.id blocker then
    (wait_for_free_path now u, w)
  else
    match find_alternative_path env u with
    | some path' => ({ u with path := path' }, w)
    | none => ask_for_pass env now u w blocker

/-- `Unit.scan_next_nodes_for_collisions`: when the next waypoint's node
is occupied by a unit other than ourselves, resolve the collision. -/
def scan_next_nodes_for_collisions (env : Env) (now : ℤ) (u : UnitState)
    (w : World) : UnitState × World :=
  match u.path with
  | [] => (u, w)
  | next :: _ =>
    match w.occupant next with
    | none => (u, w)
    | some b => if b = u.id then (u, w)
                else find_best_way_to_avoid_collision env now u w b

/-- `Unit.update_blocked_map_nodes`: scan for collisions, move the
blocked current node, and update the reservation only when more than one
waypoint remains. -/
def update_blocked_map_nodes (env : Env) (now : ℤ) (u : UnitState)
    (w : World) (new_current_node : Pos) : UnitState × World :=
  let sw := scan_next_nodes_for_collisions env now u w
  let cw := update_current_blocked_node sw.1 sw.2 new_current_node
  if 1 < cw.1.path.length then update_reserved_node cw.1 cw.2 else cw

/-- `Unit.move_to_next_waypoint`: `self.path.popleft()`. -/
def move_to_next_waypoint (u : UnitState) : UnitState :=
  { u with path := u.path.tail }

/-- `Unit.restart_path`: restore a long shelved path directly; for a
short one (at most 20 waypoints) issue a fresh `move_to` to its final
waypoint instead; in both cases clear the shelf. -/
def restart_path (u : UnitState) (w : World) (path : List Pos) :
    UnitState × World :=
  if 20 < path.length then
    ({ u with path := path, awaited_path := none }, w)
  else
    let mw := move_to u w (path.getLastD u.current_node)
    ({ mw.1 with awaited_path := none }, mw.2)

/-- `Unit.countdown_waiting`: once the deadline has elapsed, resume via
`restart_path` when the blocked node is walkable again or fewer than 20
waypoints remain; otherwise push the deadline out by one more second. -/
def countdown_waiting (env : Env) (now : ℤ) (u : UnitState) (w : World)
    (path : List Pos) : UnitState × World :=
  if u.path_wait_counter ≤ now then
    if env.walkable (path.headI) = true ∨ path.length < 20 then
      restart_path u w path
    else
      ({ u with path_wait_counter := u.path_wait_counter + 1 }, w)
  else (u, w)

/-- An environment in which nothing is walkable, no unit has a
destination, no units are enemies, and no blocker can step aside; used
for concrete runs of the movement code. -/
def envF : Env :=
  ⟨fun _ => false, fun _ => [], fun _ => false, fun _ _ => false, fun _ => none⟩

/-- A concrete unit at (0,0) with a two-waypoint path, about to walk
east. -/
def unitA : UnitState := ⟨1, (0, 0), none, [(1, 0), (2, 0)], 0, none⟩

/-- The world as `unitA` sees it: it occupies its own node, every other
cell free, no pending path requests. -/
def worldA : World :=
  ⟨fun q => if q = ((0, 0) : Pos) then some 1 else none, []⟩

/-- One `update_blocked_map_nodes` tick of `unitA` (still on its cell):
establishes the reservation of the next waypoint (path length 2 > 1). -/
def tickA : UnitState × World :=
  update_blocked_map_nodes envF 0 unitA worldA (0, 0)

/-- The next tick after `unitA` reached waypoint (1,0) and popped it
(`move_to_next_waypoint`): the path has shrunk to length 1. -/
def tickB : UnitState × World :=
  update_blocked_map_nodes envF 0 (move_to_next_waypoint tickA.1) tickA.2 (1, 0)

/-- An empty world: no occupied cells, no pending path requests. -/
def worldE : World := ⟨fun _ => none, []⟩

/-- A unit in the waiting state: queue cleared, a three-waypoint shelved
path, deadline 0 already elapsed. -/
def unitW : UnitState := ⟨1, (0, 0), none, [], 0, some [(1, 0), (2, 0), (3, 0)]⟩

/-- A shelved path with 3 waypoints (fewer than 20). -/
def pathShort : List Pos := [(1, 0), (2, 0), (3, 0)]

/-- A shelved path with 25 waypoints (at least 20). -/
def pathLong : List Pos := List.replicate 25 ((0, 0) : Pos)

/-! ## Basic lemmas about the scheduler operations -/

theorem removeFirstById_of_all_ne {eid : ℕ} :
    ∀ {l : List (ScheduledEvent × ℤ)}, (∀ x ∈ l, x.1.id ≠ eid) →
      removeFirstById eid l = l
  | [], _ => rfl
  | x :: xs, h => by
    have hx : x.1.id ≠ eid := h x (List.mem_cons_self x xs)
    simp only [removeFirstById, if_neg hx]
    rw [removeFirstById_of_all_ne (fun y hy => h y (List.mem_cons_of_mem x hy))]

theorem removeFirstById_filter (eid : ℕ) :
    ∀ l : List (ScheduledEvent × ℤ),
      (removeFirstById eid l).filter (fun x => x.1.id != eid)
        = l.filter (fun x => x.1.id != eid)
  | [] => rfl
  | x :: xs => by
    by_cases hx : x.1.id = eid
    · simp [removeFirstById, hx, List.filter_cons]
    · simp only [removeFirstById, if_neg hx, List.filter_cons]
      have : (x.1.id != eid) = true := by simpa using hx
      simp [this, removeFirstById_filter eid xs]

theorem unschedule_of_absent (s : EventsScheduler) (e : ScheduledEvent)
    (h : ∀ x ∈ s.registry, x.1.id ≠ e.id) : s.unschedule e = s := by
  simp [EventsScheduler.unschedule, removeFirstById_of_all_ne h]

theorem remove_event_none_of_all_ne {eid : ℕ} :
    ∀ {l : List ScheduledEvent}, (∀ x ∈ l, x.id ≠ eid) →
      remove_event_from_scheduled_list eid l = none
  | [], _ => rfl
  | x :: xs, h => by
    have hx : x.id ≠ eid := h x (List.mem_cons_self x xs)
    simp only [remove_event_from_scheduled_list, if_neg hx]
    rw [remove_event_none_of_all_ne (fun y hy => h y (List.mem_cons_of_mem x hy))]
    rfl

theorem remove_event_isSome_of_mem {eid : ℕ} :
    ∀ {l : List ScheduledEvent}, (∃ x ∈ l, x.id = eid) →
      ∃ l', remove_event_from_scheduled_list eid l = some l'
  | [], h => absurd h (by simp)
  | x :: xs, h => by
    by_cases hx : x.id = eid
    · exact ⟨xs, by simp [remove_event_from_scheduled_list, hx]⟩
    · obtain ⟨y, hy, hyid⟩ := h
      rcases List.mem_cons.mp hy with rfl | hy'
      · exact absurd hyid hx
      · obtain ⟨l', hl'⟩ := remove_event_isSome_of_mem ⟨y, hy', hyid⟩
        exact ⟨x :: l', by simp [remove_event_from_scheduled_list, hx, hl']⟩

theorem scheduling_delay_decremented (e : ScheduledEvent) :
    e.decremented.scheduling_delay = e.scheduling_delay := rfl

theorem update_of_empty (r : ℚ) (now : ℤ) :
    EventsScheduler.update ⟨r, []⟩ now = (⟨r, []⟩, []) := rfl

theorem update_single_of_due (r : ℚ) (e : ScheduledEvent) (t now : ℤ)
    (h : t ≤ now) :
    EventsScheduler.update ⟨r, [(e, t)]⟩ now =
      (if e.repeats.truthy then
        ⟨r, [(e.decremented, now + e.scheduling_delay)]⟩
       else ⟨r, []⟩, [e.id]) := by
  simp only [EventsScheduler.update, List.length_cons, List.length_nil]
  simp only [updateLoop, List.get?_cons_zero, if_pos h,
    EventsScheduler.unschedule, removeFirstById, if_pos rfl]
  cases htr : e.repeats.truthy with
  | true =>
    simp [htr, EventsScheduler.schedule, updateLoop,
      scheduling_delay_decremented]
  | false =>
    simp [htr, updateLoop]

theorem runDue_of_empty (r : ℚ) : ∀ m : ℕ, runDue m ⟨r, []⟩ = (⟨r, []⟩, [])
  | 0 => rfl
  | m + 1 => by
    simp [runDue, EventsScheduler.headTime, update_of_empty,
      runDue_of_empty r m]

theorem single_decremented (i : ℕ) (d : ℤ) (dl : Option ℤ) (k : ℕ) :
    (⟨i, d, dl, .fin (k + 1)⟩ : ScheduledEvent).decremented
      = ⟨i, d, dl, .fin k⟩ := by
  simp [ScheduledEvent.decremented, EventRepeat.decremented]

theorem runDue_single (i : ℕ) (d : ℤ) (dl : Option ℤ) (r : ℚ) :
    ∀ (N : ℕ) (t : ℤ) (m : ℕ), N + 1 ≤ m →
      (runDue m (single i d dl r N t)).1.registry = [] ∧
      (runDue m (single i d dl r N t)).2 = List.replicate (N + 1) i
  | 0, t, m + 1, _ => by
    have hupd := update_single_of_due r ⟨i, d, dl, .fin 0⟩ t t le_rfl
    rw [show (⟨i, d, dl, .fin 0⟩ : ScheduledEvent).repeats.truthy = false
        from rfl] at hupd
    simp only [Bool.false_eq_true, if_false] at hupd
    simp [runDue, single, EventsScheduler.headTime, hupd,
      runDue_of_empty, List.replicate]
  | N + 1, t, m + 1, hm => by
    have hupd := update_single_of_due r ⟨i, d, dl, .fin (N + 1)⟩ t t le_rfl
    rw [show (⟨i, d, dl, .fin (N + 1)⟩ : ScheduledEvent).repeats.truthy = true
        from rfl] at hupd
    simp only [if_true, single_decremented] at hupd
    have ih := runDue_single i d dl r N
      (t + (⟨i, d, dl, .fin (N + 1)⟩ : ScheduledEvent).scheduling_delay)
      m (Nat.le_of_succ_le_succ hm)
    simp only [single] at ih hupd ⊢
    simp only [runDue, EventsScheduler.headTime, hupd]
    refine ⟨ih.1, ?_⟩
    rw [List.replicate_succ]
    simpa using ih.2

/-! ## Claims -/

/-- C1: refuted by the code (code bug).  With two events both due in the
same tick, `EventsScheduler.update` executes and removes only the first:
removing it shifts the remaining events one index down while the loop
cursor advances, so the second due event (fire time 0 ≤ now = 5) is
neither executed nor removed this tick. -/
theorem update_skips_second_due_event_same_tick :
    (EventsScheduler.update
        ⟨1, [(⟨1, 1, none, .fin 0⟩, 0), (⟨2, 1, none, .fin 0⟩, 0)]⟩ 5).2
      = [1] ∧
    (EventsScheduler.update
        ⟨1, [(⟨1, 1, none, .fin 0⟩, 0), (⟨2, 1, none, .fin 0⟩, 0)]⟩ 5).1.registry
      = [(⟨2, 1, none, .fin 0⟩, 0)] ∧
    ((0 : ℤ) ≤ 5) := by decide

/-- C5: an event scheduled with `N` finite repeats left fires exactly
`N + 1` times in total over any run of at least `N + 1` due ticks, after
which it is absent from the registry (and hence never fires again: the
log stays at `N + 1` entries for every longer run). -/
theorem finite_repeats_fire_exactly_succ_times (i : ℕ) (d : ℤ)
    (dl : Option ℤ) (r : ℚ) (t : ℤ) (N m : ℕ) (hm : N + 1 ≤ m) :
    (runDue m (single i d dl r N t)).1.registry = [] ∧
    (runDue m (single i d dl r N t)).2 = List.replicate (N + 1) i :=
  runDue_single i d dl r N t m hm

/-- Witness for C5: an event with `repeat = 2` fires exactly 3 times over
5 due ticks and is gone from the registry. -/
theorem finite_repeats_fire_exactly_succ_times_witness :
    (runDue 5 (single 1 10 none 1 2 0)).1.registry = [] ∧
    (runDue 5 (single 1 10 none 1 2 0)).2 = List.replicate (2 + 1) 1 :=
  finite_repeats_fire_exactly_succ_times 1 10 none 1 0 2 5 (by decide)

/-- C7 (counterexample to the claim as stated): an event restored with
`delay_left = 7` and full `delay = 10`, firing with repeats left at time
`now = 7`, is re-inserted with fire time `7 + 7 = 14`, not
`now + delay = 17`: the re-schedule reuses `delay_left or delay`, not the
full delay. -/
theorem reschedule_ignores_full_delay_after_restore :
    (EventsScheduler.update ⟨1, [(⟨1, 10, some 7, .fin 1⟩, 7)]⟩ 7).1.registry
      = [(⟨1, 10, some 7, .fin 0⟩, 14)] ∧
    (14 : ℤ) ≠ 7 + 10 := by decide

/-- C7 (amended): when a due event with repeats left fires, the
re-inserted copy's fire time is `now + (delay_left or delay)` — the same
effective delay used by `schedule` — and not `now + delay` in general. -/
theorem reschedule_uses_delay_left_or_delay (r : ℚ) (e : ScheduledEvent)
    (t now : ℤ) (hdue : t ≤ now) (hrep : e.repeats.truthy = true) :
    (EventsScheduler.update ⟨r, [(e, t)]⟩ now).1.registry
      = [(e.decremented, now + e.scheduling_delay)] := by
  rw [update_single_of_due r e t now hdue, hrep]
  simp

/-- Witness for C7 (amended): concrete firing of a restored repeating
event. -/
theorem reschedule_uses_delay_left_or_delay_witness :
    (EventsScheduler.update ⟨1, [(⟨2, 10, some 7, .fin 3⟩, 7)]⟩ 9).1.registry
      = [((⟨2, 10, some 7, .fin 3⟩ : ScheduledEvent).decremented,
          9 + (⟨2, 10, some 7, .fin 3⟩ : ScheduledEvent).scheduling_delay)] :=
  reschedule_uses_delay_left_or_delay 1 ⟨2, 10, some 7, .fin 3⟩ 7 9
    (by decide) (by decide)

/-- C9: `unschedule` on an event absent from the registry is a no-op
(the `ValueError` is swallowed, so nothing is raised and nothing
changes, making a second `unschedule` of the same event safe); any call
leaves every entry of a different identity, together with its fire time,
untouched; and removal matches events by identity only (two events with
the same identity are interchangeable). -/
theorem unschedule_absent_is_noop_and_preserves_others
    (s : EventsScheduler) (e : ScheduledEvent) :
    ((∀ x ∈ s.registry, x.1.id ≠ e.id) → s.unschedule e = s) ∧
    ((s.unschedule e).registry.filter (fun x => x.1.id != e.id)
      = s.registry.filter (fun x => x.1.id != e.id)) ∧
    (∀ e' : ScheduledEvent, e'.id = e.id → s.unschedule e' = s.unschedule e) := by
  refine ⟨unschedule_of_absent s e, ?_, ?_⟩
  · simp [EventsScheduler.unschedule, removeFirstById_filter]
  · intro e' h
    simp [EventsScheduler.unschedule, h]

/-- Witness for C9: unscheduling an event that is not in the registry
leaves a concrete registry exactly as it was. -/
theorem unschedule_absent_is_noop_and_preserves_others_witness :
    EventsScheduler.unschedule ⟨1, [(⟨2, 5, none, .fin 0⟩, 3)]⟩
      ⟨1, 1, none, .fin 0⟩ = ⟨1, [(⟨2, 5, none, .fin 0⟩, 3)]⟩ :=
  (unschedule_absent_is_noop_and_preserves_others
      ⟨1, [(⟨2, 5, none, .fin 0⟩, 3)]⟩ ⟨1, 1, none, .fin 0⟩).1 (by decide)

/-- C10: `schedule` computes the fire time with the falsy-or
`delay_left or delay`: a `delay_left` of exactly 0 falls back to the
full `delay` (the event does not fire immediately), an unset
`delay_left` uses the full `delay`, and any nonzero (positive or
negative) `delay_left` is honored as-is. -/
theorem schedule_falsy_delay_left_rule (s : EventsScheduler) (now : ℤ)
    (e : ScheduledEvent) :
    (e.delay_left = some 0 →
      (s.schedule now e).registry.getLast? = some (e, now + e.delay)) ∧
    (∀ dl : ℤ, e.delay_left = some dl → dl ≠ 0 →
      (s.schedule now e).registry.getLast? = some (e, now + dl)) ∧
    (e.delay_left = none →
      (s.schedule now e).registry.getLast? = some (e, now + e.delay)) := by
  refine ⟨?_, ?_, ?_⟩
  · intro h
    simp [EventsScheduler.schedule, List.getLast?_concat,
      ScheduledEvent.scheduling_delay, h]
  · intro dl h hnz
    simp [EventsScheduler.schedule, List.getLast?_concat,
      ScheduledEvent.scheduling_delay, h, hnz]
  · intro h
    simp [EventsScheduler.schedule, List.getLast?_concat,
      ScheduledEvent.scheduling_delay, h]

/-- Witness for C10: the three cases of the falsy-or at concrete
events — `delay_left = 0` and `delay_left = None` use the full delay 10,
`delay_left = -3` is honored as-is. -/
theorem schedule_falsy_delay_left_rule_witness :
    ((⟨1, []⟩ : EventsScheduler).schedule 5 ⟨1, 10, some 0, .fin 0⟩).registry.getLast?
      = some (⟨1, 10, some 0, .fin 0⟩, 5 + 10) ∧
    ((⟨1, []⟩ : EventsScheduler).schedule 5 ⟨1, 10, some (-3), .fin 0⟩).registry.getLast?
      = some (⟨1, 10, some (-3), .fin 0⟩, 5 + (-3)) ∧
    ((⟨1, []⟩ : EventsScheduler).schedule 5 ⟨1, 10, none, .fin 0⟩).registry.getLast?
      = some (⟨1, 10, none, .fin 0⟩, 5 + 10) :=
  ⟨(schedule_falsy_delay_left_rule ⟨1, []⟩ 5 ⟨1, 10, some 0, .fin 0⟩).1 rfl,
   (schedule_falsy_delay_left_rule ⟨1, []⟩ 5 ⟨1, 10, some (-3), .fin 0⟩).2.1
     (-3) rfl (by decide),
   (schedule_falsy_delay_left_rule ⟨1, []⟩ 5 ⟨1, 10, none, .fin 0⟩).2.2 rfl⟩

/-- C6 (counterexample to the claim as stated): an event serialized at
the exact moment its fire time is reached records `remaining_delay = 0`;
on restore, the falsy-or in `schedule` (`delay_left or delay`) silently
replaces 0 by the full delay, so the restored `time_left` is 10, not the
recorded 0 — off by 10 seconds, far more than one tick (a tick is
`update_rate ≤ 1` second). -/
theorem shelve_restore_zero_remaining_uses_full_delay :
    event_to_shelve_datum ⟨1, [(⟨1, 10, none, .fin 0⟩, 10)]⟩ 10
        ⟨1, 10, none, .fin 0⟩ = some ⟨1, 10, 0, .fin 0⟩ ∧
    ((⟨1, []⟩ : EventsScheduler).schedule 0
        (shelve_datum_to_event ⟨1, 10, 0, .fin 0⟩)).time_left_to_event_execution
        0 (shelve_datum_to_event ⟨1, 10, 0, .fin 0⟩) = some 10 ∧
    ¬ ((10 : ℤ) - 0 ≤ 1) := by decide

/-- C6 (amended): the serialize/restore round trip preserves the
remaining delay exactly (hence within one tick) for every event whose
recorded `remaining_delay` is nonzero: restoring the shelve datum into a
scheduler with no event of the same identity and scheduling it makes
`time_left` equal to the recorded `remaining_delay`.  (At exactly zero
the full delay is used instead — see the counterexample.) -/
theorem shelve_restore_preserves_nonzero_remaining_delay
    (s s' : EventsScheduler) (now now' : ℤ) (e : ScheduledEvent)
    (dta : ShelveDatum)
    (hd : event_to_shelve_datum s now e = some dta)
    (hnz : dta.delay_left ≠ 0)
    (hfresh : ∀ x ∈ s'.registry, x.1.id ≠ e.id) :
    (s'.schedule now' (shelve_datum_to_event dta)).time_left_to_event_execution
        now' (shelve_datum_to_event dta) = some dta.delay_left := by
  rw [event_to_shelve_datum] at hd
  rcases Option.map_eq_some'.mp hd with ⟨tl, _htl, hfn⟩
  have hid : dta.id = e.id := by rw [← hfn]
  have hdl : (shelve_datum_to_event dta).scheduling_delay = dta.delay_left := by
    simp [shelve_datum_to_event, ScheduledEvent.scheduling_delay, hnz]
  have h1 : List.find? (fun x => x.1.id == (shelve_datum_to_event dta).id)
      s'.registry = none := by
    rw [List.find?_eq_none]
    intro x hx
    have := hfresh x hx
    simp [shelve_datum_to_event, hid, this]
  have h2 : ((s'.schedule now' (shelve_datum_to_event dta)).registry).find?
      (fun x => x.1.id == (shelve_datum_to_event dta).id)
      = some (shelve_datum_to_event dta,
              now' + (shelve_datum_to_event dta).scheduling_delay) := by
    simp only [EventsScheduler.schedule, List.find?_append, h1]
    simp [List.find?]
  rw [EventsScheduler.time_left_to_event_execution, h2]
  rw [hdl]
  simp

/-- Witness for C6 (amended): an event with delay 10 saved with 7 seconds
left still has 7 seconds left after restoring at a much later time. -/
theorem shelve_restore_preserves_nonzero_remaining_delay_witness :
    ((⟨1, []⟩ : EventsScheduler).schedule 100
        (shelve_datum_to_event ⟨1, 10, 7, .fin 0⟩)).time_left_to_event_execution
        100 (shelve_datum_to_event ⟨1, 10, 7, .fin 0⟩) = some 7 :=
  shelve_restore_preserves_nonzero_remaining_delay
    ⟨1, [(⟨1, 10, none, .fin 0⟩, 7)]⟩ ⟨1, []⟩ 0 100 ⟨1, 10, none, .fin 0⟩
    ⟨1, 10, 7, .fin 0⟩ (by decide) (by decide) (by decide)

/-- C8 (counterexample to the claim as stated): cancelling through the
owner is not idempotent and raises when the event is absent from the
owner's list: the first call removes the event from both collections,
but the second call hits the bare `list.remove` in
`remove_event_from_scheduled_list`, which raises `ValueError`
(modelled by `none`). -/
theorem unschedule_event_raises_on_absent_event :
    unschedule_event [⟨1, 1, none, .fin 0⟩] ⟨1, []⟩ ⟨1, 1, none, .fin 0⟩
      = some ([], ⟨1, []⟩) ∧
    unschedule_event [] ⟨1, []⟩ ⟨1, 1, none, .fin 0⟩ = none := by decide

/-- C8 (amended): cancelling via the owner removes the event from both
the owner's list and the global scheduler when the event is present in
the owner's list (absence from the global scheduler alone is tolerated,
since the scheduler-side removal is a no-op there); when the event is
absent from the owner's list, `list.remove` raises `ValueError` before
anything is removed, so the operation is not idempotent. -/
theorem unschedule_event_requires_presence_in_owner_list
    (own : List ScheduledEvent) (s : EventsScheduler) (e : ScheduledEvent) :
    ((∃ x ∈ own, x.id = e.id) →
      ∃ own', unschedule_event own s e = some (own', s.unschedule e)) ∧
    ((∀ x ∈ own, x.id ≠ e.id) → unschedule_event own s e = none) := by
  constructor
  · intro hex
    obtain ⟨l', hl'⟩ := remove_event_isSome_of_mem hex
    exact ⟨l', by simp [unschedule_event, hl']⟩
  · intro hall
    simp [unschedule_event, remove_event_none_of_all_ne hall]

/-- Witness for C8 (amended): cancelling an event present in the owner's
list succeeds and removes it from the scheduler as well. -/
theorem unschedule_event_requires_presence_in_owner_list_witness :
    ∃ own', unschedule_event [⟨1, 1, none, .fin 0⟩]
        ⟨1, [(⟨1, 1, none, .fin 0⟩, 4)]⟩ ⟨1, 1, none, .fin 0⟩
      = some (own', EventsScheduler.unschedule
          ⟨1, [(⟨1, 1, none, .fin 0⟩, 4)]⟩ ⟨1, 1, none, .fin 0⟩) :=
  (unschedule_event_requires_presence_in_owner_list [⟨1, 1, none, .fin 0⟩]
      ⟨1, [(⟨1, 1, none, .fin 0⟩, 4)]⟩ ⟨1, 1, none, .fin 0⟩).1 (by decide)

/-- C2 (counterexample to the claim as stated): the invariant
"`reserved_node` is set iff the waypoint queue has length > 1" holds
after the first tick (length 2, reservation (1,0)) but is violated at
the end of the tick after the waypoint is popped: the queue has shrunk
to length 1 yet `reserved_node` still holds the stale (1,0) —
`update_blocked_map_nodes` never clears it. -/
theorem reserved_node_stale_after_queue_shrinks :
    tickA.1.reserved_node = some (1, 0) ∧ 1 < tickA.1.path.length ∧
    tickB.1.reserved_node = some (1, 0) ∧ tickB.1.path.length = 1 ∧
    tickB.1.reserved_node ≠ none := by decide

/-- C2 (amended): at the end of a tick in which no collision handling
fired (the next waypoint's cell is free or the unit's own),
`update_blocked_map_nodes` sets `reserved_node` to the node of `path[0]`
whenever the queue's length exceeds 1, and otherwise leaves
`reserved_node` exactly as it was — it is never cleared when the queue
shrinks to length ≤ 1, so only the forward direction of the claimed
invariant holds. -/
theorem update_blocked_map_nodes_reserved_node_update_rule
    (env : Env) (now : ℤ) (u : UnitState) (w : World) (p : Pos)
    (h : u.path = [] ∨ w.occupant u.path.headI = none ∨
         w.occupant u.path.headI = some u.id) :
    (update_blocked_map_nodes env now u w p).1.reserved_node =
      if 1 < u.path.length then some u.path.headI else u.reserved_node := by
  have hscan : scan_next_nodes_for_collisions env now u w = (u, w) := by
    cases hp : u.path with
    | nil => simp [scan_next_nodes_for_collisions, hp]
    | cons a rest =>
      rw [hp] at h
      rcases h with h | h | h
      · simp at h
      · simp only [List.headI] at h
        simp [scan_next_nodes_for_collisions, hp, h]
      · simp only [List.headI] at h
        simp [scan_next_nodes_for_collisions, hp, h]
  cases hp : u.path with
  | nil =>
    simp [update_blocked_map_nodes, hscan, update_current_blocked_node, hp]
  | cons a rest =>
    cases rest with
    | nil =>
      simp [update_blocked_map_nodes, hscan, update_current_blocked_node, hp]
    | cons b rest' =>
      simp [update_blocked_map_nodes, hscan, update_current_blocked_node,
        hp, update_reserved_node, List.headI]

/-- Witness for C2 (amended): `unitA` (queue length 2, next cell free)
gets its next waypoint reserved. -/
theorem update_blocked_map_nodes_reserved_node_update_rule_witness :
    (update_blocked_map_nodes envF 0 unitA worldA (0, 0)).1.reserved_node =
      if 1 < unitA.path.length then some unitA.path.headI
      else unitA.reserved_node :=
  update_blocked_map_nodes_reserved_node_update_rule envF 0 unitA worldA
    (0, 0) (by decide)

/-- C3 (counterexample to the claim as stated): a waiting unit whose
deadline has elapsed, with a shelved path of 3 waypoints (fewer than 20,
so the resume condition holds, the blocked cell still unwalkable): the
shelved path is NOT restored into the waypoint queue (the queue stays
empty) and a NEW path request to the path's final waypoint is issued —
the claim says restore with no new path request. -/
theorem countdown_waiting_short_resume_requests_new_path :
    (countdown_waiting envF 5 unitW worldE pathShort).1.path = [] ∧
    (countdown_waiting envF 5 unitW worldE pathShort).2.requests
      = [(1, (3, 0))] ∧
    pathShort.length < 20 ∧ ((0 : ℤ) ≤ 5) := by decide

/-- C3 (amended): on deadline elapse with the resume condition (blocked
cell walkable again, or fewer than 20 waypoints left): the shelf is
cleared, and the shelved path is restored directly into the waypoint
queue only when it has more than 20 waypoints; with 20 or fewer, a fresh
path request to the shelved path's final waypoint is issued instead (the
queue is not restored).  Without the resume condition the deadline is
extended by exactly one second. -/
theorem countdown_waiting_resume_rule (env : Env) (now : ℤ) (u : UnitState)
    (w : World) (path : List Pos) (hdl : u.path_wait_counter ≤ now) :
    ((env.walkable path.headI = true ∨ path.length < 20) →
      countdown_waiting env now u w path =
        if 20 < path.length then
          ({ u with path := path, awaited_path := none }, w)
        else
          ({ u with awaited_path := none },
           { w with requests :=
               w.requests ++ [(u.id, path.getLastD u.current_node)] })) ∧
    (¬ (env.walkable path.headI = true ∨ path.length < 20) →
      countdown_waiting env now u w path =
        ({ u with path_wait_counter := u.path_wait_counter + 1 }, w)) := by
  constructor
  · intro hres
    rw [countdown_waiting, if_pos hdl, if_pos hres]
    by_cases hlen : 20 < path.length
    · rw [restart_path, if_pos hlen]
      rw [if_pos hlen]
    · rw [restart_path, if_neg hlen]
      rw [if_neg hlen]
      simp [move_to]
  · intro hres
    rw [countdown_waiting, if_pos hdl, if_neg hres]

/-- Witness for C3 (amended): both branches at concrete inputs — a
3-waypoint shelf resumes through a fresh path request, while a
25-waypoint shelf with an unwalkable blocked cell gets its deadline
pushed out by one second. -/
theorem countdown_waiting_resume_rule_witness :
    (countdown_waiting envF 5 unitW worldE pathShort =
      if 20 < pathShort.length then
        ({ unitW with path := pathShort, awaited_path := none }, worldE)
      else
        ({ unitW with awaited_path := none },
         { worldE with requests :=
             worldE.requests ++ [(unitW.id, pathShort.getLastD unitW.current_node)] })) ∧
    (countdown_waiting envF 5 unitW worldE pathLong =
      ({ unitW with path_wait_counter := unitW.path_wait_counter + 1 },
       worldE)) :=
  ⟨(countdown_waiting_resume_rule envF 5 unitW worldE pathShort
      (by decide)).1 (by decide),
   (countdown_waiting_resume_rule envF 5 unitW worldE pathLong
      (by decide)).2 (by decide)⟩

/-- C4 (counterexample to the claim as stated): a cell occupied by unit 2
is blocked by unit 1 and the occupancy record is silently overwritten —
no conflict detection, no log, no abort exists in `block_map_node`. -/
theorem block_map_node_silent_overwrite :
    (block_map_node ⟨fun q => if q = ((0, 0) : Pos) then some 2 else none,
        []⟩ 1 (0, 0)).occupant (0, 0) = some 1 ∧
    (⟨fun q => if q = ((0, 0) : Pos) then some 2 else none, []⟩ :
        World).occupant (0, 0) = some 2 ∧
    (some 1 : Option ℕ) ≠ some 2 := by decide

/-- C4 (amended): `block_map_node` sets the cell's occupancy record to
the moving unit unconditionally — regardless of any different prior
occupant, whose record is thereby overwritten — and leaves every other
cell unchanged; there is no reservation-conflict error path at all. -/
theorem block_map_node_overwrites_unconditionally (w : World) (uid : ℕ)
    (p q : Pos) :
    (block_map_node w uid p).occupant p = some uid ∧
    (q ≠ p → (block_map_node w uid p).occupant q = w.occupant q) := by
  constructor
  · simp [block_map_node]
  · intro hq
    simp [block_map_node, hq]

/-- Witness for C4 (amended): unit 2 blocks the cell (0,0) occupied by
unit 1; the record now names unit 2 and the cell (1,1) is untouched. -/
theorem block_map_node_overwrites_unconditionally_witness :
    (block_map_node worldA 2 (0, 0)).occupant (0, 0) = some 2 ∧
    (block_map_node worldA 2 (0, 0)).occupant (1, 1)
      = worldA.occupant (1, 1) :=
  ⟨(block_map_node_overwrites_unconditionally worldA 2 (0, 0) (1, 1)).1,
   (block_map_node_overwrites_unconditionally worldA 2 (0, 0) (1, 1)).2
     (by decide)⟩
